import Mathlib

/-!
Shallow embedding of the retinanet-examples training driver:
`retinanet/train.py` (the `train` loop) and `retinanet/augmentations.py`
(`create_augmentations`).

External framework calls (CUDA kernels, forward and backward passes, the
distributed `all_reduce`, TensorBoard, `infer`, `post_metrics`,
`nn_model.save`) are abstracted: numeric results arrive as per-step inputs
and side effects are recorded as events in the step result.  Floating-point
scalars are modelled as `Option ℚ`: `some q` is a finite value, `none` a
non-finite one (`nan` or `±inf`); finite arithmetic is ideal (no overflow
or rounding), which is exact for the control-flow and data-flow properties
proved here.
-/

/-- A float scalar: `some q` is finite, `none` is non-finite (nan or inf). -/
abbrev Loss : Type := Option ℚ

/-- Float addition, restricted to finiteness: a sum involving a non-finite
operand is non-finite. -/
def Loss.add : Loss → Loss → Loss
  | some a, some b => some (a + b)
  | _, _ => none

/-- Float division by a (positive) integer count preserves (non-)finiteness. -/
def Loss.divN (l : Loss) (n : Nat) : Loss := l.map (fun q => q / (n : ℚ))

/-- `math.isfinite` on the modelled scalar. -/
def Loss.isFinite (l : Loss) : Bool := l.isSome

/-- Sum of a list of scalars (the result of summing a stacked tensor). -/
def Loss.sumL (xs : List Loss) : Loss := xs.foldr Loss.add (some 0)

/-- `stacked.mean()`: sum divided by length. -/
def Loss.meanL (xs : List Loss) : Loss := (Loss.sumL xs).divN xs.length

/-- `torch.stack(list(xs)).mean().item()`: `torch.stack` raises a
RuntimeError on an empty list, modelled as `none`. -/
def Loss.stackMean (xs : List Loss) : Option Loss :=
  if xs.isEmpty then none else some (Loss.meanL xs)

/-- Float strict order used by the early stopper; any comparison with a
non-finite nan-like value is false. -/
def Loss.lt : Loss → Loss → Bool
  | some a, some b => decide (a < b)
  | _, _ => false

/-- Lines 100-105 of train.py: each process takes its local mean loss
(`cls_loss.mean()`); for `world > 1` `torch.distributed.all_reduce` replaces
it with the sum over all processes and it is divided by `world`; for
`world == 1` the local mean is kept unchanged.  `localMeans` lists the
local mean of every process; the traced process's own value is the head. -/
def reduceLoss (world : Nat) (localMeans : List Loss) : Loss :=
  if 1 < world then (Loss.sumL localMeans).divN world else localMeans.headI

/-- The arguments of `train` that drive its control flow.  `valAnnotations`,
`metricsUrl` and `logdir` model Python truthiness of the corresponding
arguments (non-empty / not-None). -/
structure Config where
  iterations : Nat
  valIterations : Nat
  valAnnotations : Bool
  isMaster : Bool
  world : Nat
  metricsUrl : Bool
  logdir : Bool
  verbose : Bool
  batchSize : Nat
deriving DecidableEq

/-- A value stored in the caller's checkpoint `state` dictionary:
`natV` for the iteration counter, `optV`/`schedV` for opaque
`optimizer.state_dict()` / `scheduler.state_dict()` snapshots, `extV` for
any key owned by the external framework. -/
inductive StateVal where
  | natV (n : Nat)
  | optV (n : Nat)
  | schedV (n : Nat)
  | extV (s : String)
deriving DecidableEq

/-- The checkpoint `state` dict, as an association list. -/
abbrev StateDict := List (String × StateVal)

/-- Python dict assignment `d[k] = v`: replace in place if the key is
present, append otherwise. -/
def setKey : StateDict → String → StateVal → StateDict
  | [], k, v => [(k, v)]
  | (k', v') :: rest, k, v =>
    if k' = k then (k', v) :: rest else (k', v') :: setKey rest k v

/-- Python dict lookup `d.get(k)`. -/
def getKey (d : StateDict) (k : String) : Option StateVal := d.lookup k

/-- Line 151-155 of train.py:
`state.update({'iteration': ..., 'optimizer': ..., 'scheduler': ...})`. -/
def stateUpdate (d : StateDict) (iter opt sched : Nat) : StateDict :=
  setKey (setKey (setKey d "iteration" (.natV iter)) "optimizer" (.optV opt))
    "scheduler" (.schedV sched)

/-- Line 78 of train.py: `state.get('iteration', 0)`. -/
def stateGetIteration (d : StateDict) : Nat :=
  match getKey d "iteration" with
  | some (.natV n) => n
  | _ => 0

/-- Modelled from the spec: the `EarlyStopping` helper imported from
`retinanet/early_stopping.py`, a file of this repository not present in
`src/`.  Per the spec it is constructed with `patience=10, mode='min'`:
it tracks the best (smallest) metric seen so far and sets `early_stop`
once `patience` consecutive calls bring no improvement. -/
structure EarlyStopping where
  patience : Nat
  best : Option Loss
  counter : Nat
  early_stop : Bool
deriving DecidableEq

/-- `EarlyStopping(patience=..., mode='min')` fresh instance. -/
def EarlyStopping.init (patience : Nat) : EarlyStopping :=
  ⟨patience, none, 0, false⟩

/-- Modelled from the spec: `es(value)` in mode 'min' — an improvement over
the best value resets the counter; otherwise the counter grows and
`early_stop` is set once it reaches the patience. -/
def EarlyStopping.call (es : EarlyStopping) (v : Loss) : EarlyStopping :=
  let improved := match es.best with
    | none => true
    | some b => Loss.lt v b
  if improved then { es with best := some v, counter := 0 }
  else
    let c := es.counter + 1
    { es with counter := c, early_stop := es.early_stop || decide (es.patience ≤ c) }

/-- The mutable state of the training loop.  `profilerTrain` and
`trainBumps` model the Profiler from `retinanet/utils.py` (a file of this
repository not present in `src/`), from the spec: `totals['train']` is the
wall time accumulated by the `bump('train')` calls since the last `reset()`
and `means['train']` is that total divided by the number of bumps. -/
structure LoopState where
  iteration : Nat
  es : EarlyStopping
  profilerTrain : ℤ
  trainBumps : Nat
  clsLosses : List Loss
  boxLosses : List Loss
  stateDict : StateDict
deriving DecidableEq

/-- One batch of the validation pass: the per-process local mean losses
delivered by `model([data, target])` at lines 164-170 of train.py. -/
structure ValBatch where
  clsMeans : List Loss
  boxMeans : List Loss
deriving DecidableEq

/-- The environment of one training step: the per-process local mean losses
of this batch, the wall time the step adds to the profiler, the current
learning rate, opaque optimizer/scheduler snapshots, and the validation
batches served by `val_iterator` should validation fire. -/
structure StepInput where
  clsMeans : List Loss
  boxMeans : List Loss
  dt : ℤ
  lr : ℚ
  optSnap : Nat
  schedSnap : Nat
  valBatches : List ValBatch
deriving DecidableEq

/-- An exception escaping the loop body: the diverging-loss RuntimeError of
line 111, the UnboundLocalError from reading a name deleted by
`del box_loss, focal_loss` (line 139), or the RuntimeError `torch.stack`
raises on an empty list (lines 120-121 and 180-181). -/
inductive TrainErr where
  | diverging
  | unboundLocal
  | stackEmpty
deriving DecidableEq

/-- The payload handed to `post_metrics` at lines 142-148. -/
structure Metrics where
  focal : Loss
  box : Loss
  total : Loss
  imS : ℚ
  lr : ℚ
deriving DecidableEq

/-- Everything observable about one pass of the loop body: the successor
state, the exception if one was raised, the losses appended to the
accumulation lists (line 107-108), whether the periodic master block ran,
whether TensorBoard scalars were written, the attempted `post_metrics`
payload (`some none` = its evaluation raised), whether the validation
block ran and saved a checkpoint, and the values passed to the early
stopper and the scheduler. -/
structure StepResult where
  state : LoopState
  err : Option TrainErr
  recordedCls : Option Loss
  recordedBox : Option Loss
  periodicRan : Bool
  tbWrote : Bool
  metricsAttempt : Option (Option Metrics)
  validationRan : Bool
  saved : Bool
  esArg : Option Loss
  schedArg : Option Loss
deriving DecidableEq

/-- Line 110: `is_master and not isfinite(cls_loss + box_loss)`. -/
def divergingCond (cfg : Config) (c b : Loss) : Bool :=
  cfg.isMaster && !(Loss.add c b).isFinite

/-- Line 119: `is_master and (profiler.totals['train'] > 60 or iteration == iterations)`. -/
def periodicCond (cfg : Config) (pt : ℤ) (iter : Nat) : Bool :=
  cfg.isMaster && (decide ((60 : ℤ) < pt) || decide (iter = cfg.iterations))

/-- Line 160: `val_annotations and (iteration == iterations or iteration % val_iterations == 0)`. -/
def valCond (cfg : Config) (iter : Nat) : Bool :=
  cfg.valAnnotations && (decide (iter = cfg.iterations) || decide (iter % cfg.valIterations = 0))

/-- The outcome of the periodic master block, lines 120-158. -/
structure PeriodicRes where
  err : Option TrainErr
  tbWrote : Bool
  metricsAttempt : Option (Option Metrics)
  stateDict : StateDict
  profilerTrain : ℤ
  trainBumps : Nat
  clsLosses : List Loss
  boxLosses : List Loss
deriving DecidableEq

/-- Lines 120-158 of train.py, the body of the periodic master block
(its guard assumed to hold): compute `focal_loss`/`box_loss` from the
accumulated lists, log, write TensorBoard scalars when `logdir` is set —
in which case `del box_loss, focal_loss` unbinds both names — then, when
`metrics_url` is set, evaluate the `post_metrics` payload (which reads
`focal_loss + box_loss`, raising UnboundLocalError if they were deleted),
update the checkpoint dict and reset the profiler and the loss lists. -/
def periodicBlock (cfg : Config) (inp : StepInput) (iter : Nat) (pt : ℤ)
    (bumps : Nat) (clsLs boxLs : List Loss) (d : StateDict) : PeriodicRes :=
  match Loss.stackMean clsLs, Loss.stackMean boxLs with
  | some focal, some box =>
    let bound : Option (Loss × Loss) := if cfg.logdir then none else some (focal, box)
    let meansTrain : ℚ := (pt : ℚ) / (bumps : ℚ)
    let attempt : Option (Option Metrics) :=
      if cfg.metricsUrl then
        some (match bound with
          | some (f, b) =>
            some ⟨Loss.meanL clsLs, Loss.meanL boxLs, Loss.add f b,
                  (cfg.batchSize : ℚ) / meansTrain, inp.lr⟩
          | none => none)
      else none
    match attempt with
    | some none =>
      { err := some .unboundLocal, tbWrote := cfg.logdir, metricsAttempt := attempt,
        stateDict := d, profilerTrain := pt, trainBumps := bumps,
        clsLosses := clsLs, boxLosses := boxLs }
    | _ =>
      { err := none, tbWrote := cfg.logdir, metricsAttempt := attempt,
        stateDict := stateUpdate d iter inp.optSnap inp.schedSnap,
        profilerTrain := 0, trainBumps := 0, clsLosses := [], boxLosses := [] }
  | _, _ =>
    { err := some .stackEmpty, tbWrote := false, metricsAttempt := none,
      stateDict := d, profilerTrain := pt, trainBumps := bumps,
      clsLosses := clsLs, boxLosses := boxLs }

/-- Lines 162-178: the per-batch validation losses appended on the master
process (reduced exactly like the training losses). -/
def valClsList (cfg : Config) (inp : StepInput) : List Loss :=
  if cfg.isMaster then inp.valBatches.map (fun b => reduceLoss cfg.world b.clsMeans)
  else []

/-- Lines 162-178, box side. -/
def valBoxList (cfg : Config) (inp : StepInput) : List Loss :=
  if cfg.isMaster then inp.valBatches.map (fun b => reduceLoss cfg.world b.boxMeans)
  else []

/-- The outcome of the validation block, lines 160-207. -/
structure ValRes where
  err : Option TrainErr
  es : EarlyStopping
  esArg : Option Loss
  schedArg : Option Loss
  saved : Bool
deriving DecidableEq

/-- Lines 160-207 of train.py, the body of the validation block (its guard
assumed to hold): compute `val_focal_loss` and `val_bbox_loss` by stacking
the accumulated validation losses, log and write TensorBoard scalars, call
the early stopper with `val_bbox_loss + val_bbox_loss` (line 194) and the
scheduler with `val_focal_loss + val_bbox_loss` (line 195), run `infer`,
and save a checkpoint via `nn_model.save(state)` (line 205). -/
def validationBlock (cfg : Config) (inp : StepInput) (es : EarlyStopping) : ValRes :=
  match Loss.stackMean (valClsList cfg inp), Loss.stackMean (valBoxList cfg inp) with
  | some vf, some vb =>
    let esA := Loss.add vb vb
    let schedA := Loss.add vf vb
    { err := none, es := es.call esA, esArg := some esA,
      schedArg := some schedA, saved := true }
  | _, _ =>
    { err := some .stackEmpty, es := es, esArg := none, schedArg := none,
      saved := false }

/-- The tail of the loop body after the periodic block: the validation
conditional of lines 160-207.  `iter` is the already-incremented iteration
counter, `s1` the loop state after the periodic block. -/
def afterPeriodic (cfg : Config) (inp : StepInput) (iter : Nat) (s1 : LoopState)
    (recC recB : Option Loss) (pRan tb : Bool)
    (ma : Option (Option Metrics)) : StepResult :=
  if valCond cfg iter then
    let v := validationBlock cfg inp s1.es
    { state := { s1 with es := v.es },
      err := v.err, recordedCls := recC, recordedBox := recB,
      periodicRan := pRan, tbWrote := tb, metricsAttempt := ma,
      validationRan := true, saved := v.saved, esArg := v.esArg,
      schedArg := v.schedArg }
  else
    { state := s1, err := none, recordedCls := recC, recordedBox := recB,
      periodicRan := pRan, tbWrote := tb, metricsAttempt := ma,
      validationRan := false, saved := false, esArg := none, schedArg := none }

/-- One pass of the body of the for-loop, lines 83-210 of train.py: reduce
this step's losses, append them on the master, run the diverging-loss guard
(line 110), bump the iteration counter and the profiler (lines 117-118),
run the periodic master block when its guard holds (line 119), then the
validation block when its guard holds (line 160). -/
def trainStep (cfg : Config) (inp : StepInput) (s : LoopState) : StepResult :=
  let clsR := reduceLoss cfg.world inp.clsMeans
  let boxR := reduceLoss cfg.world inp.boxMeans
  let clsLs := if cfg.isMaster then s.clsLosses ++ [clsR] else s.clsLosses
  let boxLs := if cfg.isMaster then s.boxLosses ++ [boxR] else s.boxLosses
  let recC : Option Loss := if cfg.isMaster then some clsR else none
  let recB : Option Loss := if cfg.isMaster then some boxR else none
  if divergingCond cfg clsR boxR then
    { state := { s with clsLosses := clsLs, boxLosses := boxLs },
      err := some .diverging, recordedCls := recC, recordedBox := recB,
      periodicRan := false, tbWrote := false, metricsAttempt := none,
      validationRan := false, saved := false, esArg := none, schedArg := none }
  else
    let iter := s.iteration + 1
    let pt := s.profilerTrain + inp.dt
    let bumps := s.trainBumps + 1
    if periodicCond cfg pt iter then
      let p := periodicBlock cfg inp iter pt bumps clsLs boxLs s.stateDict
      let s1 : LoopState :=
        { iteration := iter, es := s.es, profilerTrain := p.profilerTrain,
          trainBumps := p.trainBumps, clsLosses := p.clsLosses,
          boxLosses := p.boxLosses, stateDict := p.stateDict }
      match p.err with
      | some e =>
        { state := s1, err := some e, recordedCls := recC, recordedBox := recB,
          periodicRan := true, tbWrote := p.tbWrote,
          metricsAttempt := p.metricsAttempt, validationRan := false,
          saved := false, esArg := none, schedArg := none }
      | none =>
        afterPeriodic cfg inp iter s1 recC recB true p.tbWrote p.metricsAttempt
    else
      afterPeriodic cfg inp iter
        { iteration := iter, es := s.es, profilerTrain := pt,
          trainBumps := bumps, clsLosses := clsLs, boxLosses := boxLs,
          stateDict := s.stateDict }
        recC recB false false none

/-- The while/for loop of lines 81-210 as a guarded stream of step inputs:
each executed step is recorded together with its pre-state.  The guard is
exactly the conjunction of the while-condition of line 81 and the negation
of the break condition of lines 209-210 (the counter moves by one per step,
so `iteration == iterations` and `iterations <= iteration` coincide as stop
conditions); a raised exception ends the run after its step. -/
def runTrain (cfg : Config) : List StepInput → LoopState → List (LoopState × StepResult)
  | [], _ => []
  | inp :: rest, s =>
    if s.iteration < cfg.iterations && !s.es.early_stop then
      let r := trainStep cfg inp s
      match r.err with
      | some _ => [(s, r)]
      | none => (s, r) :: runTrain cfg rest r.state
    else []

/-- `train(model, state, ...)`: the loop started from the caller's
checkpoint dict — the counter from `state.get('iteration', 0)` (line 78),
a fresh `EarlyStopping(patience=10, mode='min')` (line 79), an empty
profiler and empty loss accumulation lists. -/
def train (cfg : Config) (inputs : List StepInput) (d : StateDict) :
    List (LoopState × StepResult) :=
  runTrain cfg inputs
    { iteration := stateGetIteration d, es := EarlyStopping.init 10,
      profilerTrain := 0, trainBumps := 0, clsLosses := [], boxLosses := [],
      stateDict := d }

/-- The checkpoint dict as left behind by a run (the last step's state,
or the caller's dict if no step ran). -/
def finalDict (d : StateDict) : List (LoopState × StepResult) → StateDict
  | [] => d
  | x :: T => finalDict x.2.state.stateDict T

/-- One entry of `transforms_config` (a Python dict): `name = some n` while
the `'name'` key is present, `none` once deleted by line 20 of
augmentations.py (or absent from the start); `params` holds the remaining
key-value pairs, passed opaquely to the transform constructor. -/
structure AugEntry where
  name : Option String
  params : List (String × String)
deriving DecidableEq

/-- A constructed albumentations transform `transform_class(**transform_cfg)`:
the looked-up class name together with the constructor arguments. -/
structure Transform where
  className : String
  params : List (String × String)
deriving DecidableEq

/-- How the loop over `transforms_config` ends: normally, by `exit(1)` from
the AttributeError handler, or by an uncaught KeyError from
`transform_cfg['name']` on an entry with no `'name'` key. -/
inductive AugStatus where
  | done
  | exit1
  | keyError
deriving DecidableEq

/-- A line printed by `create_augmentations`: the `print(transform_cfg)` of
line 21 (the entry after its `'name'` key was deleted), or the message of
lines 24-25. -/
inductive AugPrint where
  | cfgDump (params : List (String × String))
  | message (s : String)
deriving DecidableEq

/-- The message printed by the AttributeError handler, lines 24-25. -/
def wrongNameMsg : String :=
  "Wrong augmentation name, list of supported augmentations here: https://albumentations.readthedocs.io/en/latest/api/augmentations.html"

/-- The for-loop of lines 17-26 of augmentations.py, parameterised by
`isAttr`, the predicate `getattr(A, ·)` succeeds on the albumentations
module.  For each entry: read `transform_cfg['name']` (KeyError if absent,
uncaught), look the class up (AttributeError caught: print the message
and `exit(1)`), delete the `'name'` key in place, print the entry and
construct the transform.  Returns the status, the final (possibly mutated)
entry dicts, the constructed transforms and the printed lines. -/
def augLoop (isAttr : String → Bool) :
    List AugEntry → AugStatus × List AugEntry × List Transform × List AugPrint
  | [] => (.done, [], [], [])
  | e :: rest =>
    match e.name with
    | none => (.keyError, e :: rest, [], [])
    | some n =>
      if isAttr n then
        let e' : AugEntry := ⟨none, e.params⟩
        let r := augLoop isAttr rest
        (r.1, e' :: r.2.1, ⟨n, e.params⟩ :: r.2.2.1, .cfgDump e.params :: r.2.2.2)
      else (.exit1, e :: rest, [], [.message wrongNameMsg])

/-- How `create_augmentations` ends: returning `None`, returning
`A.Compose(transforms, A.BboxParams(**bbox_params))`, terminating the
process via `exit(code)`, or raising a KeyError to the caller. -/
inductive AugResult where
  | retNone
  | retCompose (ts : List Transform)
  | exited (code : Nat)
  | keyErrorRaised
deriving DecidableEq

/-- `create_augmentations(transforms_config)` of augmentations.py: `None`
for an empty config (lines 13-14), otherwise the loop of lines 17-26
followed by the `A.Compose` of line 28.  Returns the outcome, the final
state of the caller's entry dicts (they are mutated in place), and the
printed lines. -/
def create_augmentations (isAttr : String → Bool) (cfgs : List AugEntry) :
    AugResult × List AugEntry × List AugPrint :=
  if cfgs.length = 0 then (.retNone, cfgs, [])
  else
    match augLoop isAttr cfgs with
    | (.done, es, ts, outs) => (.retCompose ts, es, outs)
    | (.exit1, es, _, outs) => (.exited 1, es, outs)
    | (.keyError, es, _, outs) => (.keyErrorRaised, es, outs)

/-- A quiet single-process master step scenario: no validation data, no
metrics URL, no TensorBoard, two requested iterations. -/
def cfgQuiet : Config := ⟨2, 100, false, true, 1, false, false, true, 1⟩

/-- A step input for the quiet scenario: finite unit losses, no elapsed
time, no validation batches. -/
def inpQuiet : StepInput := ⟨[some 1], [some 1], 0, 1, 0, 0, []⟩

/-- A step input whose wall time pushes the profiler past 60 seconds. -/
def inpSlow : StepInput := ⟨[some 1], [some 1], 61, 1, 0, 0, []⟩

/-- The fresh loop state `train` builds from an empty checkpoint dict. -/
def s0 : LoopState := ⟨0, EarlyStopping.init 10, 0, 0, [], [], []⟩

/-- A scenario whose validation guard fires on every iteration
(`val_iterations = 1`, non-empty `val_annotations`). -/
def cfgVal : Config := ⟨5, 1, true, true, 1, false, false, true, 1⟩

/-- A step input carrying one validation batch. -/
def inpVal : StepInput := ⟨[some 1], [some 2], 0, 1, 0, 0, [⟨[some 3], [some 4]⟩]⟩

/-- A two-process scenario for the loss-reduction claim. -/
def cfgTwo : Config := ⟨4, 100, false, true, 2, false, false, true, 1⟩

/-- Per-process local mean losses for the two-process scenario. -/
def inpTwo : StepInput := ⟨[some 1, some 3], [some 2, some 4], 0, 1, 0, 0, []⟩

/-- A checkpoint dict holding one framework-owned key. -/
def dExt : StateDict := [("model", .extV "weights")]

theorem validationBlock_cases (cfg : Config) (inp : StepInput) (es : EarlyStopping) :
    (∃ vf vb, Loss.stackMean (valClsList cfg inp) = some vf ∧
        Loss.stackMean (valBoxList cfg inp) = some vb ∧
        validationBlock cfg inp es =
          ⟨none, es.call (Loss.add vb vb), some (Loss.add vb vb),
           some (Loss.add vf vb), true⟩) ∨
    validationBlock cfg inp es = ⟨some .stackEmpty, es, none, none, false⟩ := by
  unfold validationBlock
  rcases hc : Loss.stackMean (valClsList cfg inp) with _ | vf <;>
    rcases hb : Loss.stackMean (valBoxList cfg inp) with _ | vb <;>
    simp

theorem periodicBlock_out (cfg : Config) (inp : StepInput) (iter : Nat) (pt : ℤ)
    (bumps : Nat) (clsLs boxLs : List Loss) (d : StateDict) :
    (let p := periodicBlock cfg inp iter pt bumps clsLs boxLs d
     (p.err = none ∧ p.profilerTrain = 0 ∧ p.trainBumps = 0 ∧
       p.clsLosses = [] ∧ p.boxLosses = [] ∧
       p.stateDict = stateUpdate d iter inp.optSnap inp.schedSnap) ∨
     ((p.err = some .unboundLocal ∨ p.err = some .stackEmpty) ∧
       p.stateDict = d)) := by
  unfold periodicBlock
  rcases hc : Loss.stackMean clsLs with _ | focal <;>
    rcases hb : Loss.stackMean boxLs with _ | box <;> simp
  by_cases hl : cfg.logdir <;> by_cases hm : cfg.metricsUrl <;> simp [hl, hm]

theorem afterPeriodic_err_ne_diverging (cfg : Config) (inp : StepInput) (iter : Nat)
    (s1 : LoopState) (recC recB : Option Loss) (pRan tb : Bool)
    (ma : Option (Option Metrics)) :
    (afterPeriodic cfg inp iter s1 recC recB pRan tb ma).err ≠ some .diverging := by
  unfold afterPeriodic
  by_cases hv : valCond cfg iter = true <;> simp [hv]
  rcases validationBlock_cases cfg inp s1.es with ⟨vf, vb, _, _, hveq⟩ | hveq <;>
    simp [hveq]

/-- C3: the diverging-loss RuntimeError is raised by a step exactly when the
process is the master and the (reduced) classification plus box loss is not
finite; a non-master process never raises it and a finite total never
triggers it. -/
theorem c3_diverging_guard (cfg : Config) (inp : StepInput) (s : LoopState) :
    (trainStep cfg inp s).err = some .diverging ↔
      (cfg.isMaster = true ∧
        (Loss.add (reduceLoss cfg.world inp.clsMeans)
          (reduceLoss cfg.world inp.boxMeans)).isFinite = false) := by
  by_cases hd : divergingCond cfg (reduceLoss cfg.world inp.clsMeans)
      (reduceLoss cfg.world inp.boxMeans) = true
  · have hrhs := hd
    simp only [divergingCond, Bool.and_eq_true, Bool.not_eq_true',
      Bool.not_eq_true] at hrhs
    simp [trainStep, hd, hrhs]
  · have hrhs := hd
    simp only [divergingCond, Bool.and_eq_true, Bool.not_eq_true',
      Bool.not_eq_true] at hrhs
    simp only [trainStep, hd, if_false, Bool.false_eq_true]
    constructor
    · intro hcon
      by_cases hp : periodicCond cfg (s.profilerTrain + inp.dt) (s.iteration + 1) = true
      · simp only [hp, if_true] at hcon
        rcases periodicBlock_out cfg inp (s.iteration + 1) (s.profilerTrain + inp.dt)
            (s.trainBumps + 1)
            (if cfg.isMaster = true then
              s.clsLosses ++ [reduceLoss cfg.world inp.clsMeans] else s.clsLosses)
            (if cfg.isMaster = true then
              s.boxLosses ++ [reduceLoss cfg.world inp.boxMeans] else s.boxLosses)
            s.stateDict with ⟨he, _⟩ | ⟨he | he, _⟩ <;>
          rw [he] at hcon <;> simp at hcon
        · exact (afterPeriodic_err_ne_diverging cfg inp _ _ _ _ _ _ _ hcon).elim
      · simp only [hp, if_false, Bool.false_eq_true] at hcon
        exact (afterPeriodic_err_ne_diverging cfg inp _ _ _ _ _ _ _ hcon).elim
    · intro hcon
      exact absurd hcon (by simpa [divergingCond] using hd)

theorem afterPeriodic_proj (cfg : Config) (inp : StepInput) (iter : Nat)
    (s1 : LoopState) (recC recB : Option Loss) (pRan tb : Bool)
    (ma : Option (Option Metrics)) :
    (afterPeriodic cfg inp iter s1 recC recB pRan tb ma).state.stateDict = s1.stateDict ∧
    (afterPeriodic cfg inp iter s1 recC recB pRan tb ma).state.profilerTrain = s1.profilerTrain ∧
    (afterPeriodic cfg inp iter s1 recC recB pRan tb ma).state.trainBumps = s1.trainBumps ∧
    (afterPeriodic cfg inp iter s1 recC recB pRan tb ma).state.clsLosses = s1.clsLosses ∧
    (afterPeriodic cfg inp iter s1 recC recB pRan tb ma).state.boxLosses = s1.boxLosses ∧
    (afterPeriodic cfg inp iter s1 recC recB pRan tb ma).state.iteration = s1.iteration ∧
    (afterPeriodic cfg inp iter s1 recC recB pRan tb ma).periodicRan = pRan ∧
    (afterPeriodic cfg inp iter s1 recC recB pRan tb ma).recordedCls = recC ∧
    (afterPeriodic cfg inp iter s1 recC recB pRan tb ma).recordedBox = recB ∧
    (afterPeriodic cfg inp iter s1 recC recB pRan tb ma).tbWrote = tb ∧
    (afterPeriodic cfg inp iter s1 recC recB pRan tb ma).metricsAttempt = ma := by
  unfold afterPeriodic
  by_cases hv : valCond cfg iter = true <;> simp [hv]

theorem afterPeriodic_val_iff (cfg : Config) (inp : StepInput) (iter : Nat)
    (s1 : LoopState) (recC recB : Option Loss) (pRan tb : Bool)
    (ma : Option (Option Metrics))
    (hok : (afterPeriodic cfg inp iter s1 recC recB pRan tb ma).err = none) :
    ((afterPeriodic cfg inp iter s1 recC recB pRan tb ma).validationRan = true ∧
      (afterPeriodic cfg inp iter s1 recC recB pRan tb ma).saved = true) ↔
      valCond cfg iter = true := by
  unfold afterPeriodic at *
  by_cases hv : valCond cfg iter = true <;> simp [hv] at *
  rcases validationBlock_cases cfg inp s1.es with ⟨vf, vb, _, _, hveq⟩ | hveq <;>
    simp [hveq] at *

theorem trainStep_ok_shape (cfg : Config) (inp : StepInput) (s : LoopState)
    (hok : (trainStep cfg inp s).err = none) :
    ∃ s1 pRan tb ma,
      trainStep cfg inp s = afterPeriodic cfg inp (s.iteration + 1) s1
        (if cfg.isMaster = true then some (reduceLoss cfg.world inp.clsMeans) else none)
        (if cfg.isMaster = true then some (reduceLoss cfg.world inp.boxMeans) else none)
        pRan tb ma ∧
      s1.iteration = s.iteration + 1 ∧ s1.es = s.es ∧
      pRan = periodicCond cfg (s.profilerTrain + inp.dt) (s.iteration + 1) ∧
      (pRan = true →
        s1.profilerTrain = 0 ∧ s1.trainBumps = 0 ∧ s1.clsLosses = [] ∧
        s1.boxLosses = [] ∧
        s1.stateDict = stateUpdate s.stateDict (s.iteration + 1) inp.optSnap inp.schedSnap) ∧
      (pRan = false →
        s1.profilerTrain = s.profilerTrain + inp.dt ∧
        s1.trainBumps = s.trainBumps + 1 ∧
        s1.clsLosses = (if cfg.isMaster = true then
          s.clsLosses ++ [reduceLoss cfg.world inp.clsMeans] else s.clsLosses) ∧
        s1.boxLosses = (if cfg.isMaster = true then
          s.boxLosses ++ [reduceLoss cfg.world inp.boxMeans] else s.boxLosses) ∧
        s1.stateDict = s.stateDict) := by
  by_cases hd : divergingCond cfg (reduceLoss cfg.world inp.clsMeans)
      (reduceLoss cfg.world inp.boxMeans) = true
  · simp [trainStep, hd] at hok
  · by_cases hp : periodicCond cfg (s.profilerTrain + inp.dt) (s.iteration + 1) = true
    · simp only [trainStep, hd, if_false, Bool.false_eq_true, hp, if_true] at hok ⊢
      have hout := periodicBlock_out cfg inp (s.iteration + 1) (s.profilerTrain + inp.dt)
          (s.trainBumps + 1)
          (if cfg.isMaster = true then
            s.clsLosses ++ [reduceLoss cfg.world inp.clsMeans] else s.clsLosses)
          (if cfg.isMaster = true then
            s.boxLosses ++ [reduceLoss cfg.world inp.boxMeans] else s.boxLosses)
          s.stateDict
      simp only at hout
      set pb := periodicBlock cfg inp (s.iteration + 1) (s.profilerTrain + inp.dt)
          (s.trainBumps + 1)
          (if cfg.isMaster = true then
            s.clsLosses ++ [reduceLoss cfg.world inp.clsMeans] else s.clsLosses)
          (if cfg.isMaster = true then
            s.boxLosses ++ [reduceLoss cfg.world inp.boxMeans] else s.boxLosses)
          s.stateDict with hpb
      rcases hout with ⟨he, hpt, hbu, hcl, hbx, hsd⟩ | ⟨he | he, hsd⟩ <;>
        rw [he] at hok ⊢
      · exact ⟨_, true, pb.tbWrote, pb.metricsAttempt, rfl, rfl, rfl, rfl,
          fun _ => ⟨hpt, hbu, hcl, hbx, hsd⟩,
          fun hcon => absurd hcon (by simp)⟩
      · exact absurd hok (by simp)
      · exact absurd hok (by simp)
    · simp only [trainStep, hd, if_false, Bool.false_eq_true, hp, if_true] at hok ⊢
      exact ⟨_, false, false, none, rfl, rfl, rfl, rfl,
        fun hcon => absurd hcon (by simp),
        fun _ => ⟨rfl, rfl, rfl, rfl, rfl⟩⟩

theorem trainStep_recorded (cfg : Config) (inp : StepInput) (s : LoopState) :
    (trainStep cfg inp s).recordedCls =
      (if cfg.isMaster = true then some (reduceLoss cfg.world inp.clsMeans) else none) ∧
    (trainStep cfg inp s).recordedBox =
      (if cfg.isMaster = true then some (reduceLoss cfg.world inp.boxMeans) else none) := by
  simp only [trainStep]
  split
  · exact ⟨rfl, rfl⟩
  · split
    · split
      · exact ⟨rfl, rfl⟩
      · exact ⟨(afterPeriodic_proj _ _ _ _ _ _ _ _ _).2.2.2.2.2.2.2.1,
          (afterPeriodic_proj _ _ _ _ _ _ _ _ _).2.2.2.2.2.2.2.2.1⟩
    · exact ⟨(afterPeriodic_proj _ _ _ _ _ _ _ _ _).2.2.2.2.2.2.2.1,
        (afterPeriodic_proj _ _ _ _ _ _ _ _ _).2.2.2.2.2.2.2.2.1⟩

/-- C1: assuming the step completes without an exception, the validation
pass followed by the checkpoint save of `nn_model.save(state)` runs exactly
when `val_annotations` is non-empty and the (incremented) iteration counter
equals the total iteration count or is divisible by `val_iterations`. -/
theorem c1_validation_fires_iff (cfg : Config) (inp : StepInput) (s : LoopState)
    (hok : (trainStep cfg inp s).err = none) :
    ((trainStep cfg inp s).validationRan = true ∧
      (trainStep cfg inp s).saved = true) ↔
      (cfg.valAnnotations = true ∧
        (s.iteration + 1 = cfg.iterations ∨
          (s.iteration + 1) % cfg.valIterations = 0)) := by
  obtain ⟨s1, pRan, tb, ma, heq, -, -, -, -, -⟩ := trainStep_ok_shape cfg inp s hok
  rw [heq] at hok ⊢
  rw [afterPeriodic_val_iff _ _ _ _ _ _ _ _ _ hok]
  simp [valCond]

/-- C5: assuming the step completes without an exception, the master-only
periodic block runs exactly when the process is the master and the
accumulated profiler train time exceeds 60 seconds or the (incremented)
iteration counter equals the total iterations; when it runs, the profiler
and the accumulated loss lists end the step reset to empty. -/
theorem c5_periodic_fires_iff (cfg : Config) (inp : StepInput) (s : LoopState)
    (hok : (trainStep cfg inp s).err = none) :
    ((trainStep cfg inp s).periodicRan = true ↔
      (cfg.isMaster = true ∧
        ((60 : ℤ) < s.profilerTrain + inp.dt ∨ s.iteration + 1 = cfg.iterations))) ∧
    ((trainStep cfg inp s).periodicRan = true →
      (trainStep cfg inp s).state.profilerTrain = 0 ∧
      (trainStep cfg inp s).state.trainBumps = 0 ∧
      (trainStep cfg inp s).state.clsLosses = [] ∧
      (trainStep cfg inp s).state.boxLosses = []) := by
  obtain ⟨s1, pRan, tb, ma, heq, hit, hes, hpc, hptrue, hpfalse⟩ :=
    trainStep_ok_shape cfg inp s hok
  rw [heq]
  have h := afterPeriodic_proj cfg inp (s.iteration + 1) s1
    (if cfg.isMaster = true then some (reduceLoss cfg.world inp.clsMeans) else none)
    (if cfg.isMaster = true then some (reduceLoss cfg.world inp.boxMeans) else none)
    pRan tb ma
  rw [h.2.2.2.2.2.2.1, h.2.1, h.2.2.1, h.2.2.2.1, h.2.2.2.2.1]
  constructor
  · rw [hpc]; simp [periodicCond]
  · intro hp
    obtain ⟨h1, h2, h3, h4, -⟩ := hptrue hp
    exact ⟨h1, h2, h3, h4⟩

theorem afterPeriodic_val_args (cfg : Config) (inp : StepInput) (iter : Nat)
    (s1 : LoopState) (recC recB : Option Loss) (pRan tb : Bool)
    (ma : Option (Option Metrics))
    (hok : (afterPeriodic cfg inp iter s1 recC recB pRan tb ma).err = none)
    (hval : (afterPeriodic cfg inp iter s1 recC recB pRan tb ma).validationRan = true) :
    ∃ vf vb, Loss.stackMean (valClsList cfg inp) = some vf ∧
      Loss.stackMean (valBoxList cfg inp) = some vb ∧
      (afterPeriodic cfg inp iter s1 recC recB pRan tb ma).esArg =
        some (Loss.add vb vb) ∧
      (afterPeriodic cfg inp iter s1 recC recB pRan tb ma).schedArg =
        some (Loss.add vf vb) := by
  by_cases hv : valCond cfg iter = true
  · simp only [afterPeriodic, if_pos hv]
    rcases validationBlock_cases cfg inp s1.es with ⟨vf, vb, h1, h2, hveq⟩ | hveq
    · rw [hveq]
      exact ⟨vf, vb, h1, h2, rfl, rfl⟩
    · simp only [afterPeriodic, if_pos hv, hveq] at hok
      exact absurd hok (by simp)
  · simp only [afterPeriodic, if_neg hv] at hval
    exact absurd hval (by simp)

theorem trainStep_val_args (cfg : Config) (inp : StepInput) (s : LoopState)
    (hok : (trainStep cfg inp s).err = none)
    (hval : (trainStep cfg inp s).validationRan = true) :
    ∃ vf vb, Loss.stackMean (valClsList cfg inp) = some vf ∧
      Loss.stackMean (valBoxList cfg inp) = some vb ∧
      (trainStep cfg inp s).esArg = some (Loss.add vb vb) ∧
      (trainStep cfg inp s).schedArg = some (Loss.add vf vb) := by
  obtain ⟨s1, pRan, tb, ma, heq, -, -, -, -, -⟩ := trainStep_ok_shape cfg inp s hok
  rw [heq] at hok hval ⊢
  exact afterPeriodic_val_args cfg inp _ s1 _ _ pRan tb ma hok hval

/-- C9: at a completed validation event the early stopper is called with
`val_bbox_loss + val_bbox_loss` — twice the validation box loss, so the
validation focal loss never influences the early-stopping decision — while
the scheduler in the same event steps on `val_focal_loss + val_bbox_loss`. -/
theorem c9_early_stopper_monitors_box (cfg : Config) (inp : StepInput)
    (s : LoopState)
    (hok : (trainStep cfg inp s).err = none)
    (hval : (trainStep cfg inp s).validationRan = true) :
    ∃ vf vb, Loss.stackMean (valClsList cfg inp) = some vf ∧
      Loss.stackMean (valBoxList cfg inp) = some vb ∧
      (trainStep cfg inp s).esArg = some (Loss.add vb vb) ∧
      (trainStep cfg inp s).schedArg = some (Loss.add vf vb) ∧
      ∀ (inp' : StepInput) (s' : LoopState),
        valBoxList cfg inp' = valBoxList cfg inp →
        (trainStep cfg inp' s').err = none →
        (trainStep cfg inp' s').validationRan = true →
        (trainStep cfg inp' s').esArg = (trainStep cfg inp s).esArg := by
  obtain ⟨vf, vb, h1, h2, h3, h4⟩ := trainStep_val_args cfg inp s hok hval
  refine ⟨vf, vb, h1, h2, h3, h4, ?_⟩
  intro inp' s' hbox hok' hval'
  obtain ⟨vf', vb', h1', h2', h3', h4'⟩ := trainStep_val_args cfg inp' s' hok' hval'
  rw [hbox, h2] at h2'
  injection h2' with h
  rw [h3', h3, h]

/-- C2: the loss a step records on the master is the all_reduce-sum of the
per-process local mean losses divided by `world` — the arithmetic mean over
the processes — when `world > 1`, and the unchanged local mean when
`world == 1`. -/
theorem c2_loss_reduction (cfg : Config) (inp : StepInput) (s : LoopState)
    (hm : cfg.isMaster = true)
    (hlc : inp.clsMeans.length = cfg.world)
    (hlb : inp.boxMeans.length = cfg.world) :
    (1 < cfg.world →
      (trainStep cfg inp s).recordedCls = some (Loss.meanL inp.clsMeans) ∧
      (trainStep cfg inp s).recordedBox = some (Loss.meanL inp.boxMeans)) ∧
    (cfg.world = 1 →
      (trainStep cfg inp s).recordedCls = some inp.clsMeans.headI ∧
      (trainStep cfg inp s).recordedBox = some inp.boxMeans.headI) := by
  obtain ⟨hc, hb⟩ := trainStep_recorded cfg inp s
  rw [hm] at hc hb
  simp only [if_true] at hc hb
  constructor
  · intro hw
    rw [hc, hb]
    unfold reduceLoss Loss.meanL
    rw [if_pos hw, if_pos hw, hlc, hlb]
    exact ⟨rfl, rfl⟩
  · intro hw
    rw [hc, hb]
    unfold reduceLoss
    rw [hw]
    simp

/-- C4: every step the loop executes starts from a counter strictly below
the requested iteration count and with the early stopper not yet tripped;
the loop stops at the first point where the counter reaches `iterations`
or `early_stop` is set. -/
theorem c4_loop_bounds (cfg : Config) (inputs : List StepInput) (s : LoopState) :
    ∀ p ∈ runTrain cfg inputs s,
      p.1.iteration < cfg.iterations ∧ p.1.es.early_stop = false := by
  induction inputs generalizing s with
  | nil =>
    intro p hp
    simp [runTrain] at hp
  | cons inp rest ih =>
    intro p hp
    simp only [runTrain] at hp
    by_cases hg : (decide (s.iteration < cfg.iterations) && !s.es.early_stop) = true
    · rw [if_pos hg] at hp
      simp only [Bool.and_eq_true, decide_eq_true_eq, Bool.not_eq_true'] at hg
      rcases hme : (trainStep cfg inp s).err with _ | e <;> simp only [hme] at hp
      · rcases List.mem_cons.mp hp with h | h
        · rw [h]; exact hg
        · exact ih (trainStep cfg inp s).state p h
      · rcases List.mem_singleton.mp hp with h
        rw [h]; exact hg
    · rw [if_neg hg] at hp
      simp at hp

theorem getKey_setKey_ne (d : StateDict) (k k2 : String) (v : StateVal)
    (h : k ≠ k2) : getKey (setKey d k2 v) k = getKey d k := by
  have hb : (k == k2) = false := beq_eq_false_iff_ne.mpr h
  induction d with
  | nil => simp [setKey, getKey, List.lookup, hb]
  | cons kv rest ih =>
    obtain ⟨k', v'⟩ := kv
    by_cases hk : k' = k2
    · subst hk
      simp only [setKey, if_pos rfl]
      simp [getKey, List.lookup, hb]
    · simp only [setKey, if_neg hk]
      rcases hkb : k == k' with _ | _
      · simp only [getKey, List.lookup, hkb]
        exact ih
      · simp only [getKey, List.lookup, hkb]

theorem getKey_stateUpdate_ne (d : StateDict) (iter opt sched : Nat) (k : String)
    (h1 : k ≠ "iteration") (h2 : k ≠ "optimizer") (h3 : k ≠ "scheduler") :
    getKey (stateUpdate d iter opt sched) k = getKey d k := by
  unfold stateUpdate
  rw [getKey_setKey_ne _ _ _ _ h3, getKey_setKey_ne _ _ _ _ h2,
    getKey_setKey_ne _ _ _ _ h1]

theorem trainStep_stateDict_cases (cfg : Config) (inp : StepInput) (s : LoopState) :
    (trainStep cfg inp s).state.stateDict = s.stateDict ∨
    ((trainStep cfg inp s).state.stateDict =
        stateUpdate s.stateDict (s.iteration + 1) inp.optSnap inp.schedSnap ∧
      (trainStep cfg inp s).periodicRan = true ∧ cfg.isMaster = true) := by
  by_cases hd : divergingCond cfg (reduceLoss cfg.world inp.clsMeans)
      (reduceLoss cfg.world inp.boxMeans) = true
  · left; simp [trainStep, hd]
  · by_cases hp : periodicCond cfg (s.profilerTrain + inp.dt) (s.iteration + 1) = true
    · have hm : cfg.isMaster = true := by
        have h := hp
        simp only [periodicCond, Bool.and_eq_true] at h
        exact h.1
      simp only [trainStep, hd, if_false, Bool.false_eq_true, hp, if_true]
      have hout := periodicBlock_out cfg inp (s.iteration + 1) (s.profilerTrain + inp.dt)
          (s.trainBumps + 1)
          (if cfg.isMaster = true then
            s.clsLosses ++ [reduceLoss cfg.world inp.clsMeans] else s.clsLosses)
          (if cfg.isMaster = true then
            s.boxLosses ++ [reduceLoss cfg.world inp.boxMeans] else s.boxLosses)
          s.stateDict
      simp only at hout
      set pb := periodicBlock cfg inp (s.iteration + 1) (s.profilerTrain + inp.dt)
          (s.trainBumps + 1)
          (if cfg.isMaster = true then
            s.clsLosses ++ [reduceLoss cfg.world inp.clsMeans] else s.clsLosses)
          (if cfg.isMaster = true then
            s.boxLosses ++ [reduceLoss cfg.world inp.boxMeans] else s.boxLosses)
          s.stateDict with hpb
      rcases hout with ⟨he, hpt, hbu, hcl, hbx, hsd⟩ | ⟨he | he, hsd⟩ <;> rw [he]
      · right
        refine ⟨?_, ?_, hm⟩
        · rw [(afterPeriodic_proj _ _ _ _ _ _ _ _ _).1]; exact hsd
        · rw [(afterPeriodic_proj _ _ _ _ _ _ _ _ _).2.2.2.2.2.2.1]
      · left; exact hsd
      · left; exact hsd
    · left
      simp only [trainStep, hd, if_false, Bool.false_eq_true, hp]
      exact (afterPeriodic_proj _ _ _ _ _ _ _ _ _).1

theorem trainStep_frame (cfg : Config) (inp : StepInput) (s : LoopState) (k : String)
    (h1 : k ≠ "iteration") (h2 : k ≠ "optimizer") (h3 : k ≠ "scheduler") :
    getKey (trainStep cfg inp s).state.stateDict k = getKey s.stateDict k := by
  rcases trainStep_stateDict_cases cfg inp s with h | ⟨h, -, -⟩ <;> rw [h]
  exact getKey_stateUpdate_ne _ _ _ _ _ h1 h2 h3

theorem finalDict_cons (d : StateDict) (x : LoopState × StepResult)
    (T : List (LoopState × StepResult)) :
    finalDict d (x :: T) = finalDict x.2.state.stateDict T := rfl

theorem runTrain_frame (cfg : Config) (inputs : List StepInput) (s : LoopState)
    (k : String)
    (h1 : k ≠ "iteration") (h2 : k ≠ "optimizer") (h3 : k ≠ "scheduler") :
    getKey (finalDict s.stateDict (runTrain cfg inputs s)) k = getKey s.stateDict k ∧
    ∀ p ∈ runTrain cfg inputs s,
      p.2.state.stateDict = p.1.stateDict ∨
      (p.2.periodicRan = true ∧ cfg.isMaster = true) := by
  induction inputs generalizing s with
  | nil =>
    constructor
    · rfl
    · intro p hp; simp [runTrain] at hp
  | cons inp rest ih =>
    simp only [runTrain]
    by_cases hg : (decide (s.iteration < cfg.iterations) && !s.es.early_stop) = true
    · rw [if_pos hg]
      rcases hme : (trainStep cfg inp s).err with _ | e <;> simp only [hme]
      · constructor
        · rw [finalDict_cons]
          rw [(ih (trainStep cfg inp s).state).1]
          exact trainStep_frame cfg inp s k h1 h2 h3
        · intro p hp
          rcases List.mem_cons.mp hp with h | h
          · rw [h]
            rcases trainStep_stateDict_cases cfg inp s with hc | ⟨-, hc1, hc2⟩
            · left; exact hc
            · right; exact ⟨hc1, hc2⟩
          · exact (ih (trainStep cfg inp s).state).2 p h
      · constructor
        · rw [finalDict_cons]
          exact trainStep_frame cfg inp s k h1 h2 h3
        · intro p hp
          rcases List.mem_singleton.mp hp with h
          rw [h]
          rcases trainStep_stateDict_cases cfg inp s with hc | ⟨-, hc1, hc2⟩
          · left; exact hc
          · right; exact ⟨hc1, hc2⟩
    · rw [if_neg hg]
      constructor
      · rfl
      · intro p hp; simp at hp

/-- C8: over any run, the only keys `train` writes into the caller's state
dictionary are 'iteration', 'optimizer' and 'scheduler', and a step changes
the dictionary only when the periodic logging block ran on the master
process; every other key is left unchanged by the whole run. -/
theorem c8_state_dict_frame (cfg : Config) (inputs : List StepInput) (d : StateDict)
    (k : String)
    (h1 : k ≠ "iteration") (h2 : k ≠ "optimizer") (h3 : k ≠ "scheduler") :
    getKey (finalDict d (train cfg inputs d)) k = getKey d k ∧
    ∀ p ∈ train cfg inputs d,
      p.2.state.stateDict = p.1.stateDict ∨
      (p.2.periodicRan = true ∧ cfg.isMaster = true) := by
  unfold train
  exact runTrain_frame cfg inputs
    { iteration := stateGetIteration d, es := EarlyStopping.init 10,
      profilerTrain := 0, trainBumps := 0, clsLosses := [], boxLosses := [],
      stateDict := d } k h1 h2 h3

/-- C6 (code bug at the failing input): with both `logdir` and
`metrics_url` set, the first periodic logging event writes the TensorBoard
scalars, deletes `focal_loss` and `box_loss`, and the `post_metrics`
payload evaluation then reads the deleted names: the step ends in
UnboundLocalError instead of posting metrics.  With `logdir` unset and the
same inputs, the same event posts the full payload and completes. -/
theorem c6_post_metrics_unbound :
    (trainStep ⟨5, 100, false, true, 1, true, true, true, 1⟩ inpSlow s0).err =
      some .unboundLocal ∧
    (trainStep ⟨5, 100, false, true, 1, true, true, true, 1⟩ inpSlow s0).tbWrote =
      true ∧
    (trainStep ⟨5, 100, false, true, 1, true, true, true, 1⟩ inpSlow s0).metricsAttempt =
      some none ∧
    (trainStep ⟨5, 100, false, true, 1, true, false, true, 1⟩ inpSlow s0).err = none ∧
    (trainStep ⟨5, 100, false, true, 1, true, false, true, 1⟩ inpSlow s0).metricsAttempt ≠
      none ∧
    (trainStep ⟨5, 100, false, true, 1, true, false, true, 1⟩ inpSlow s0).metricsAttempt ≠
      some none := by
  decide

theorem augLoop_bad_name (isAttr : String → Bool) (cfgs : List AugEntry)
    (hnames : ∀ e ∈ cfgs, e.name.isSome = true)
    (hbad : ∃ e ∈ cfgs, ∃ n, e.name = some n ∧ isAttr n = false) :
    (augLoop isAttr cfgs).1 = .exit1 ∧
    AugPrint.message wrongNameMsg ∈ (augLoop isAttr cfgs).2.2.2 := by
  induction cfgs with
  | nil =>
    rcases hbad with ⟨e, he, -⟩
    simp at he
  | cons e rest ih =>
    rcases hn : e.name with _ | n
    · have h := hnames e (List.mem_cons_self _ _)
      rw [hn] at h
      simp at h
    · rcases hb : isAttr n with _ | _
      · simp [augLoop, hn, hb]
      · simp only [augLoop, hn, hb, if_true]
        have hbad' : ∃ e' ∈ rest, ∃ n', e'.name = some n' ∧ isAttr n' = false := by
          rcases hbad with ⟨e', he', n', hn', hb'⟩
          rcases List.mem_cons.mp he' with h | h
          · subst h
            rw [hn] at hn'
            injection hn' with hh
            subst hh
            rw [hb'] at hb
            cases hb
          · exact ⟨e', h, n', hn', hb'⟩
        obtain ⟨ih1, ih2⟩ :=
          ih (fun e' he' => hnames e' (List.mem_cons_of_mem _ he')) hbad'
        exact ⟨ih1, List.mem_cons_of_mem _ ih2⟩

/-- C7: on a config whose entries all carry a 'name' key and at least one
names something that is not an albumentations attribute,
`create_augmentations` prints the supported-augmentations message and
terminates the process with exit status 1 — it neither returns a value nor
raises to the caller. -/
theorem c7_bad_augmentation_exits (isAttr : String → Bool) (cfgs : List AugEntry)
    (hnames : ∀ e ∈ cfgs, e.name.isSome = true)
    (hbad : ∃ e ∈ cfgs, ∃ n, e.name = some n ∧ isAttr n = false) :
    (create_augmentations isAttr cfgs).1 = .exited 1 ∧
    AugPrint.message wrongNameMsg ∈ (create_augmentations isAttr cfgs).2.2 := by
  have hne : ¬cfgs.length = 0 := by
    rcases hbad with ⟨e, he, -⟩
    cases cfgs
    · simp at he
    · simp
  obtain ⟨h1, h2⟩ := augLoop_bad_name isAttr cfgs hnames hbad
  unfold create_augmentations
  rw [if_neg hne]
  rcases hal : augLoop isAttr cfgs with ⟨st, es, ts, outs⟩
  rw [hal] at h1 h2
  simp only at h1 h2
  subst h1
  exact ⟨rfl, h2⟩

/-- C10 counterexample: on the non-empty one-entry config whose name is not
an albumentations attribute, `create_augmentations` exits before deleting
anything, and the entry keeps its 'name' key — the claimed unconditional
mutation is false. -/
theorem c10_counterexample :
    ¬ ∀ (isAttr : String → Bool) (cfgs : List AugEntry), cfgs ≠ [] →
        ∀ e ∈ (create_augmentations isAttr cfgs).2.1, e.name = none := by
  intro h
  have hc := h (fun _ => false) [⟨some "Bogus", []⟩] (by simp)
      ⟨some "Bogus", []⟩ (by decide)
  simp at hc

theorem augLoop_all_valid (isAttr : String → Bool) (cfgs : List AugEntry)
    (hvalid : ∀ e ∈ cfgs, ∃ n, e.name = some n ∧ isAttr n = true) :
    (augLoop isAttr cfgs).1 = .done ∧
    ∀ e ∈ (augLoop isAttr cfgs).2.1, e.name = none := by
  induction cfgs with
  | nil => simp [augLoop]
  | cons e rest ih =>
    obtain ⟨n, hn, hb⟩ := hvalid e (List.mem_cons_self _ _)
    simp only [augLoop, hn, hb, if_true]
    obtain ⟨ih1, ih2⟩ := ih (fun e' he' => hvalid e' (List.mem_cons_of_mem _ he'))
    refine ⟨ih1, ?_⟩
    intro e' he'
    rcases List.mem_cons.mp he' with h | h
    · rw [h]
    · exact ih2 e' h

/-- C10 (amended): when every entry of the config names a valid
albumentations attribute, a non-empty config has the 'name' key deleted
from each of its (in-place mutated) entry dicts, and an empty config makes
`create_augmentations` return None rather than a Compose object. -/
theorem c10_mutation_amended (isAttr : String → Bool) (cfgs : List AugEntry)
    (hvalid : ∀ e ∈ cfgs, ∃ n, e.name = some n ∧ isAttr n = true) :
    (cfgs ≠ [] → ∀ e ∈ (create_augmentations isAttr cfgs).2.1, e.name = none) ∧
    (cfgs = [] → (create_augmentations isAttr cfgs).1 = .retNone) := by
  obtain ⟨h1, h2⟩ := augLoop_all_valid isAttr cfgs hvalid
  constructor
  · intro hne
    have hlen : ¬cfgs.length = 0 := by
      cases cfgs
      · exact absurd rfl hne
      · simp
    unfold create_augmentations
    rw [if_neg hlen]
    rcases hal : augLoop isAttr cfgs with ⟨st, es, ts, outs⟩
    rw [hal] at h1 h2
    simp only at h1 h2
    subst h1
    exact h2
  · intro he
    subst he
    rfl

/-- C1 witness: the validation-firing equivalence at a concrete completing
step whose guard holds. -/
theorem c1_witness :
    (trainStep cfgVal inpVal s0).err = none ∧
    (((trainStep cfgVal inpVal s0).validationRan = true ∧
        (trainStep cfgVal inpVal s0).saved = true) ↔
      (cfgVal.valAnnotations = true ∧
        (s0.iteration + 1 = cfgVal.iterations ∨
          (s0.iteration + 1) % cfgVal.valIterations = 0))) :=
  ⟨by decide, c1_validation_fires_iff cfgVal inpVal s0 (by decide)⟩

/-- C2 witness: the reduction equalities at a concrete two-process step. -/
theorem c2_witness :
    cfgTwo.isMaster = true ∧ inpTwo.clsMeans.length = cfgTwo.world ∧
    inpTwo.boxMeans.length = cfgTwo.world ∧
    ((1 < cfgTwo.world →
      (trainStep cfgTwo inpTwo s0).recordedCls = some (Loss.meanL inpTwo.clsMeans) ∧
      (trainStep cfgTwo inpTwo s0).recordedBox = some (Loss.meanL inpTwo.boxMeans)) ∧
    (cfgTwo.world = 1 →
      (trainStep cfgTwo inpTwo s0).recordedCls = some inpTwo.clsMeans.headI ∧
      (trainStep cfgTwo inpTwo s0).recordedBox = some inpTwo.boxMeans.headI)) :=
  ⟨rfl, rfl, rfl, c2_loss_reduction cfgTwo inpTwo s0 rfl rfl rfl⟩

/-- C4 witness: the loop-bound invariant at the one step of a concrete run. -/
theorem c4_witness :
    (s0, trainStep cfgQuiet inpQuiet s0) ∈ runTrain cfgQuiet [inpQuiet] s0 ∧
    ((s0, trainStep cfgQuiet inpQuiet s0).1.iteration < cfgQuiet.iterations ∧
      (s0, trainStep cfgQuiet inpQuiet s0).1.es.early_stop = false) :=
  ⟨by decide,
    c4_loop_bounds cfgQuiet [inpQuiet] s0 (s0, trainStep cfgQuiet inpQuiet s0)
      (by decide)⟩

/-- C5 witness: the periodic-block equivalence at a concrete step whose
wall time crosses the 60-second threshold. -/
theorem c5_witness :
    (trainStep cfgQuiet inpSlow s0).err = none ∧
    (((trainStep cfgQuiet inpSlow s0).periodicRan = true ↔
      (cfgQuiet.isMaster = true ∧
        ((60 : ℤ) < s0.profilerTrain + inpSlow.dt ∨
          s0.iteration + 1 = cfgQuiet.iterations))) ∧
    ((trainStep cfgQuiet inpSlow s0).periodicRan = true →
      (trainStep cfgQuiet inpSlow s0).state.profilerTrain = 0 ∧
      (trainStep cfgQuiet inpSlow s0).state.trainBumps = 0 ∧
      (trainStep cfgQuiet inpSlow s0).state.clsLosses = [] ∧
      (trainStep cfgQuiet inpSlow s0).state.boxLosses = [])) :=
  ⟨by decide, c5_periodic_fires_iff cfgQuiet inpSlow s0 (by decide)⟩

/-- C7 witness: a concrete config with one valid-shaped entry whose name is
not an attribute exits with status 1 and prints the message. -/
theorem c7_witness :
    (∀ e ∈ ([⟨some "Bogus", []⟩] : List AugEntry), e.name.isSome = true) ∧
    (∃ e ∈ ([⟨some "Bogus", []⟩] : List AugEntry),
      ∃ n, e.name = some n ∧ (fun _ : String => false) n = false) ∧
    ((create_augmentations (fun _ => false) [⟨some "Bogus", []⟩]).1 = .exited 1 ∧
      AugPrint.message wrongNameMsg ∈
        (create_augmentations (fun _ => false) [⟨some "Bogus", []⟩]).2.2) :=
  ⟨by decide, ⟨⟨some "Bogus", []⟩, by decide, "Bogus", rfl, rfl⟩,
    c7_bad_augmentation_exits (fun _ => false) [⟨some "Bogus", []⟩] (by decide)
      ⟨⟨some "Bogus", []⟩, by decide, "Bogus", rfl, rfl⟩⟩

/-- C8 witness: the frame property at a concrete run over a dict holding a
framework-owned key. -/
theorem c8_witness :
    ("model" : String) ≠ "iteration" ∧ ("model" : String) ≠ "optimizer" ∧
    ("model" : String) ≠ "scheduler" ∧
    (getKey (finalDict dExt (train cfgQuiet [inpQuiet] dExt)) "model" =
        getKey dExt "model" ∧
      ∀ p ∈ train cfgQuiet [inpQuiet] dExt,
        p.2.state.stateDict = p.1.stateDict ∨
        (p.2.periodicRan = true ∧ cfgQuiet.isMaster = true)) :=
  ⟨by decide, by decide, by decide,
    c8_state_dict_frame cfgQuiet [inpQuiet] dExt "model" (by decide) (by decide)
      (by decide)⟩

/-- C9 witness: the early-stopper and scheduler arguments at a concrete
validation event. -/
theorem c9_witness :
    (trainStep cfgVal inpVal s0).err = none ∧
    (trainStep cfgVal inpVal s0).validationRan = true ∧
    (∃ vf vb, Loss.stackMean (valClsList cfgVal inpVal) = some vf ∧
      Loss.stackMean (valBoxList cfgVal inpVal) = some vb ∧
      (trainStep cfgVal inpVal s0).esArg = some (Loss.add vb vb) ∧
      (trainStep cfgVal inpVal s0).schedArg = some (Loss.add vf vb) ∧
      ∀ (inp' : StepInput) (s' : LoopState),
        valBoxList cfgVal inp' = valBoxList cfgVal inpVal →
        (trainStep cfgVal inp' s').err = none →
        (trainStep cfgVal inp' s').validationRan = true →
        (trainStep cfgVal inp' s').esArg = (trainStep cfgVal inpVal s0).esArg) :=
  ⟨by decide, by decide,
    c9_early_stopper_monitors_box cfgVal inpVal s0 (by decide) (by decide)⟩

/-- C10 witness: on a one-entry config naming a valid attribute, the entry
ends with its 'name' key deleted. -/
theorem c10_witness :
    ([(⟨some "Blur", []⟩ : AugEntry)] ≠ []) ∧
    (∀ e ∈ (create_augmentations (fun _ => true) [⟨some "Blur", []⟩]).2.1,
      e.name = none) :=
  ⟨by decide,
    (c10_mutation_amended (fun _ => true) [⟨some "Blur", []⟩]
      (by intro e he; rw [List.mem_singleton.mp he]; exact ⟨"Blur", rfl, rfl⟩)).1
      (by decide)⟩
